import Mathlib

/-!
Verification of the run-orchestration and status-distribution layer of the
school-scraper system.

The frontend (Next.js, `app/page.tsx` and `components/Sidebar.tsx`) is embedded
directly from its source.  The backend orchestration core (run registry,
concurrency gate, run executor, progress estimator, status service) is not part
of the available sources — only its HTTP callers are — so those parts are
modelled from the specification, with each such definition marked
`Modelled from the spec:` in its doc comment.

JavaScript numeric idioms are embedded explicitly: `x || d` on a number is
`jsOrNat`, `Math.round` is `jsRound` (floor of `x + 1/2` on rationals), and
optional fields are `Option` values whose `x || d` chains are spelled out.
-/

namespace SchoolScraper

/-- JavaScript `x || d` for a non-negative number `x`: `0` is falsy and is
replaced by the default `d` (an absent field is embedded as `0` upstream). -/
def jsOrNat (x d : Nat) : Nat :=
  if x = 0 then d else x

/-- JavaScript `Math.round` on a non-negative rational: floor of `x + 1/2`. -/
def jsRound (x : ℚ) : ℤ :=
  Int.floor (x + 1 / 2)

/-- Embeds `page.tsx` `checkPipelineStatus` (running branch, lines 395-398):
`totalCounties = data.totalCounties || 1` and
`countyProgress = Math.round((countiesProcessed / totalCounties) * 100)`. -/
def countyProgress (countiesProcessed totalCounties : Nat) : ℤ :=
  jsRound (((countiesProcessed : ℚ) / (jsOrNat totalCounties 1 : Nat)) * 100)

/-- Embeds `Sidebar.tsx` lines 619-621:
`progressPercent = totalCount > 0 ? Math.round((completedCount / totalCount) * 100) : 0`. -/
def progressPercent (completedCount totalCount : Nat) : ℤ :=
  if 0 < totalCount then jsRound (((completedCount : ℚ) / (totalCount : Nat)) * 100) else 0

/-- Modelled from the spec: `percentComplete = round(100 * completed_units / max(total_units, 1))`
(ProgressEstimator, §4.2).  Stated separately from the source-derived
`countyProgress`/`progressPercent` so the two can be compared. -/
def specPercentComplete (completedUnits totalUnits : Nat) : ℤ :=
  jsRound (100 * (completedUnits : ℚ) / (max totalUnits 1 : Nat))

theorem jsRound_zero : jsRound 0 = 0 := by
  rw [jsRound, Int.floor_eq_zero_iff]
  constructor <;> norm_num

theorem jsOrNat_eq_max_one (t : Nat) : jsOrNat t 1 = max t 1 := by
  rcases Nat.eq_zero_or_pos t with h | h
  · subst h; rfl
  · rw [jsOrNat, if_neg (Nat.pos_iff_ne_zero.mp h), Nat.max_eq_left h]

/-- Claim C2: for `completed ≤ total`, the percent-complete computed by the
status-distribution layer (both the page's running-branch computation and the
sidebar's per-run progress pill) equals `round(100 * completed / max(total, 1))`;
it is `0` when `total = 0` and never exceeds `100`. -/
theorem percent_complete_correct (c t : Nat) (h : c ≤ t) :
    countyProgress c t = specPercentComplete c t ∧
    progressPercent c t = specPercentComplete c t ∧
    (t = 0 → specPercentComplete c t = 0) ∧
    specPercentComplete c t ≤ 100 := by
  have hdiv : ∀ x : ℚ, (c : ℚ) / x * 100 = 100 * (c : ℚ) / x := by
    intro x
    rw [div_mul_eq_mul_div, mul_comm]
  rcases Nat.eq_zero_or_pos t with ht | ht
  · subst ht
    have hc : c = 0 := Nat.le_zero.mp h
    subst hc
    refine ⟨?_, ?_, fun _ => ?_, ?_⟩
    · rw [countyProgress, specPercentComplete]
      norm_num
    · rw [progressPercent, if_neg (by omega), specPercentComplete]
      norm_num [jsRound_zero]
    · rw [specPercentComplete]
      norm_num [jsRound_zero]
    · rw [specPercentComplete]
      norm_num [jsRound_zero]
  · have hmax : max t 1 = t := Nat.max_eq_left ht
    have htQ : (0 : ℚ) < (t : ℚ) := by exact_mod_cast ht
    have hbound : specPercentComplete c t ≤ 100 := by
      rw [specPercentComplete, hmax, jsRound]
      have hle : 100 * (c : ℚ) / (t : ℚ) ≤ 100 := by
        rw [div_le_iff₀ htQ]
        have : (c : ℚ) ≤ (t : ℚ) := by exact_mod_cast h
        nlinarith
      have : (100 * (c : ℚ) / (t : ℚ) + 1 / 2) < 101 := by linarith
      have hfl : Int.floor (100 * (c : ℚ) / (t : ℚ) + 1 / 2) < 101 :=
        Int.floor_lt.mpr (by exact_mod_cast this)
      omega
    refine ⟨?_, ?_, fun h0 => absurd h0 (by omega), hbound⟩
    · rw [countyProgress, specPercentComplete, jsOrNat_eq_max_one, hdiv]
    · rw [progressPercent, if_pos ht, specPercentComplete, hmax, hdiv]

/-- Witness for C2 at `completed = 3`, `total = 4`. -/
theorem percent_complete_correct_witness :
    3 ≤ 4 ∧
    (countyProgress 3 4 = specPercentComplete 3 4 ∧
     progressPercent 3 4 = specPercentComplete 3 4 ∧
     (4 = 0 → specPercentComplete 3 4 = 0) ∧
     specPercentComplete 3 4 ≤ 100) :=
  ⟨by norm_num, percent_complete_correct 3 4 (by norm_num)⟩

/-- Modelled from the spec: `status` is one of
`queued, running, finalizing, completed, error` (§3); the registry stores no
other state, in particular no `paused`. -/
inductive RunStatus
  | queued
  | running
  | finalizing
  | completed
  | error
deriving DecidableEq, Repr

/-- Modelled from the spec: the wire form of a stored status, as delivered to
the frontend by the status service. -/
def statusToString : RunStatus → String
  | .queued => "queued"
  | .running => "running"
  | .finalizing => "finalizing"
  | .completed => "completed"
  | .error => "error"

/-- Embeds `page.tsx` `formatStatus` (lines 260-280): the consumer-side switch
that turns a status string and metric counters into display copy.  The
`countiesProcessed`/`totalCounties`/`schoolsFound`/`errors` arguments carry the
`metrics?.x || 0` defaults already applied. -/
def formatStatus (status : String)
    (countiesProcessed totalCounties schoolsFound errors : Nat) : String :=
  if status = "running" then
    "Running — County " ++ toString countiesProcessed ++ "/" ++ toString totalCounties
  else if status = "paused" then
    "Paused — Waiting"
  else if status = "completed" then
    "Complete — " ++ toString schoolsFound ++ " schools"
  else if status = "error" then
    "Error — " ++ toString errors ++ " errors"
  else if status = "finalizing" then
    "Finalizing..."
  else
    status

/-- Claim C6: every stored status is one of exactly
`queued, running, finalizing, completed, error`; no stored run has status
`paused`; the `Paused — Waiting` label exists only as a consumer-side
derivation in `formatStatus`, and feeding any stored status through
`formatStatus` never produces it. -/
theorem stored_status_domain :
    (∀ s : RunStatus,
      statusToString s = "queued" ∨ statusToString s = "running" ∨
      statusToString s = "finalizing" ∨ statusToString s = "completed" ∨
      statusToString s = "error") ∧
    (∀ s : RunStatus, statusToString s ≠ "paused") ∧
    (∀ c t f e : Nat, formatStatus "paused" c t f e = "Paused — Waiting") ∧
    (∀ s : RunStatus, ∀ c t f e : Nat,
      formatStatus (statusToString s) c t f e ≠ "Paused — Waiting") := by
  refine ⟨?_, ?_, ?_, ?_⟩
  · intro s; cases s <;> simp [statusToString]
  · intro s; cases s <;> simp [statusToString]
  · intro c t f e; simp [formatStatus]
  · intro s c t f e
    cases s <;> simp only [statusToString, formatStatus] <;> simp <;>
      · intro h
        have hd := congrArg String.data h
        simp only [String.data_append] at hd
        simp at hd

/-- Embeds the `RunMetadata` record of `Sidebar.tsx` (lines 302-314): the
per-run summary delivered by `GET /runs`.  Optional JSON fields are `Option`;
`schools_processed` is carried as well because `page.tsx` `onRunSelect` reads
it off the same records. -/
structure RunMetadata where
  run_id : Nat
  state : String
  status : String
  total_counties : Option Nat
  completed_counties : List String
  total_contacts : Option Nat
  schools_processed : Option Nat
  created_at : Option Nat
  completed_at : Option Nat
  csv_filename : Option String
  archived : Option Bool
deriving DecidableEq, Repr

/-- JavaScript truthiness of the optional `archived` flag: `run.archived` is
truthy exactly when it is present and `true` (so `!run.archived` and
`run.archived === true` are each other's complements). -/
def archivedTruthy (run : RunMetadata) : Bool :=
  decide (run.archived = some true)

/-- Embeds `Sidebar.tsx` `filteredRuns` (lines 598-606): the per-tab filter
predicate.  `running` tab keeps `status === 'running' && !archived`; `archive`
tab keeps `archived === true`; every other tab (the `finished` branch) keeps
`(status === 'completed' || status === 'error') && !archived`. -/
def sidebarFilter (activeTab : String) (run : RunMetadata) : Bool :=
  if activeTab = "running" then
    decide (run.status = "running") && ! archivedTruthy run
  else if activeTab = "archive" then
    archivedTruthy run
  else
    (decide (run.status = "completed") || decide (run.status = "error")) &&
      ! archivedTruthy run

/-- Claim C10: the Running, Archive and Finished tab filters are pairwise
disjoint — no run record (any status string, any archived flag) is listed
under two tabs at once. -/
theorem tab_filters_disjoint (run : RunMetadata) :
    (¬ (sidebarFilter "running" run = true ∧ sidebarFilter "archive" run = true)) ∧
    (¬ (sidebarFilter "running" run = true ∧ sidebarFilter "finished" run = true)) ∧
    (¬ (sidebarFilter "archive" run = true ∧ sidebarFilter "finished" run = true)) := by
  refine ⟨?_, ?_, ?_⟩
  · rintro ⟨h1, h2⟩
    simp [sidebarFilter, archivedTruthy] at h1 h2
    exact h1.2 h2
  · rintro ⟨h1, h2⟩
    simp [sidebarFilter, archivedTruthy] at h1 h2
    rcases h2.1 with h | h <;> rw [h1.1] at h <;> exact absurd h (by decide)
  · rintro ⟨h1, h2⟩
    simp [sidebarFilter, archivedTruthy] at h1 h2
    exact h2.2 h1

/-- Responses that `page.tsx` `checkPipelineStatus` can observe from
`GET /pipeline-status/:runId`: an OK body carrying a status string, a 404, or
a 410. -/
inductive StatusResponse
  | okStatus (s : String)
  | notFound404
  | gone410
deriving DecidableEq, Repr

/-- Embeds the polling-interval bookkeeping of `checkPipelineStatus`
(lines 309-439): given whether an interval is currently set (`active`) and a
response, returns whether an interval is set afterwards.  404 and 410 clear it
(lines 312-315, 324-327); `completed` and `error` clear it (lines 349-353,
376-380); `finalizing` leaves it unchanged; `running` may start one when the
run is the selected run on the Running/Finished tab (`restartAllowed`,
lines 428-437); any other status leaves it unchanged. -/
def pollContinues (active : Bool) (resp : StatusResponse) (restartAllowed : Bool) : Bool :=
  match resp with
  | .notFound404 => false
  | .gone410 => false
  | .okStatus s =>
    if s = "completed" then false
    else if s = "error" then false
    else if s = "finalizing" then active
    else if s = "running" then active || restartAllowed
    else active

/-- Status requests issued over a stream of pending responses: a poller whose
interval is set issues one request per tick and updates its interval per the
response; a poller with no interval set issues none. -/
def requestCount (restartAllowed : Bool) (active : Bool) : List StatusResponse → Nat
  | [] => 0
  | r :: rest =>
    if active then
      1 + requestCount restartAllowed (pollContinues active r restartAllowed) rest
    else 0

/-- Claim C9: once the poller observes a response whose status is `completed`
or `error` it clears its polling interval, and from that cleared state it
issues no further status request over any stream of later responses. -/
theorem poller_stops_after_terminal (active restartAllowed : Bool) (s : String)
    (rest : List StatusResponse) (hterm : s = "completed" ∨ s = "error") :
    pollContinues active (.okStatus s) restartAllowed = false ∧
    requestCount restartAllowed (pollContinues active (.okStatus s) restartAllowed) rest = 0 := by
  have hfalse : pollContinues active (.okStatus s) restartAllowed = false := by
    rcases hterm with h | h <;> subst h <;> simp [pollContinues]
  refine ⟨hfalse, ?_⟩
  rw [hfalse]
  cases rest <;> simp [requestCount]

/-- Witness for C9: a live poller that reads `completed` stops, and issues no
request even with a `running` response still pending. -/
theorem poller_stops_after_terminal_witness :
    ("completed" = "completed" ∨ "completed" = "error") ∧
    (pollContinues true (.okStatus "completed") true = false ∧
     requestCount true (pollContinues true (.okStatus "completed") true)
       [.okStatus "running"] = 0) :=
  ⟨Or.inl rfl,
   poller_stops_after_terminal true true "completed" [.okStatus "running"] (Or.inl rfl)⟩

/-- Modelled from the spec: the Run record of §3 (the registry's backend
implementation is not among the available sources).  `totalUnits` is the
length of the fixed ordered unit list; `totalContacts`/`schoolsProcessed` are
the aggregate counters; `unitHistory` is the append-only per-unit history. -/
structure Run where
  runId : Nat
  targetKey : String
  status : RunStatus
  totalUnits : Nat
  completedUnits : Nat
  totalContacts : Nat
  schoolsProcessed : Nat
  unitHistory : List Nat
  createdAt : Nat
  completedAt : Option Nat
  errorDetail : Option String
  artifactRef : Option String
  archived : Bool
deriving DecidableEq, Repr

/-- Statuses in `{queued, running, finalizing}` (the non-terminal ones). -/
def nonTerminal : RunStatus → Bool
  | .queued => true
  | .running => true
  | .finalizing => true
  | .completed => false
  | .error => false

/-- Modelled from the spec: the RunExecutor state machine of §4.4
(`queued → running → finalizing → completed`, with `running → error` on a
fatal fault and `finalizing → error` on a compile fault).  Each completed unit
atomically bumps `completedUnits`, adds the unit's metrics to the aggregate
counters and appends to the history. -/
inductive ExecStep : Run → Run → Prop
  | start (r : Run) (h : r.status = .queued) :
      ExecStep r { r with status := .running }
  | unitDone (r : Run) (found schools : Nat) (h : r.status = .running)
      (hlt : r.completedUnits < r.totalUnits) :
      ExecStep r { r with
        completedUnits := r.completedUnits + 1,
        totalContacts := r.totalContacts + found,
        schoolsProcessed := r.schoolsProcessed + schools,
        unitHistory := r.unitHistory ++ [found] }
  | toFinalizing (r : Run) (h : r.status = .running)
      (hdone : r.completedUnits = r.totalUnits) :
      ExecStep r { r with status := .finalizing }
  | compileOk (r : Run) (art : String) (t : Nat) (h : r.status = .finalizing) :
      ExecStep r { r with
        status := .completed, artifactRef := some art, completedAt := some t }
  | fatal (r : Run) (msg : String) (t : Nat) (h : r.status = .running) :
      ExecStep r { r with
        status := .error, errorDetail := some msg, completedAt := some t }
  | compileFail (r : Run) (msg : String) (t : Nat) (h : r.status = .finalizing) :
      ExecStep r { r with
        status := .error, errorDetail := some msg, completedAt := some t }

theorem execStep_totalUnits {r r2 : Run} (h : ExecStep r r2) :
    r2.totalUnits = r.totalUnits := by
  cases h <;> rfl

theorem execStep_archived {r r2 : Run} (h : ExecStep r r2) :
    r2.archived = r.archived := by
  cases h <;> rfl

theorem execStep_completed_mono {r r2 : Run} (h : ExecStep r r2) :
    r.completedUnits ≤ r2.completedUnits := by
  cases h <;> simp

theorem execStep_completed_le_total {r r2 : Run} (h : ExecStep r r2)
    (hinv : r.completedUnits ≤ r.totalUnits) :
    r2.completedUnits ≤ r2.totalUnits := by
  cases h <;> (simp_all; try omega)

theorem execStep_nonTerminal_back {r r2 : Run} (h : ExecStep r r2)
    (h2 : nonTerminal r2.status = true) : nonTerminal r.status = true := by
  cases h <;> simp_all [nonTerminal]

/-- Claim C8: along every executor trace (reflexive-transitive closure of
executor steps), `completedUnits` is monotonically non-decreasing and stays
at or below `totalUnits` as long as it starts that way — in particular from
creation, where `completedUnits = 0`. -/
theorem completed_units_monotone_bounded (r r2 : Run)
    (htrace : Relation.ReflTransGen ExecStep r r2)
    (hinv : r.completedUnits ≤ r.totalUnits) :
    r.completedUnits ≤ r2.completedUnits ∧ r2.completedUnits ≤ r2.totalUnits := by
  induction htrace with
  | refl => exact ⟨le_refl _, hinv⟩
  | tail hsteps hstep ih =>
    exact ⟨le_trans ih.1 (execStep_completed_mono hstep),
           execStep_completed_le_total hstep ih.2⟩

/-- Sample run in `running` state, used to instantiate the theorems about the
executor at a concrete input. -/
def sampleRunning : Run :=
  { runId := 7, targetKey := "delaware", status := .running, totalUnits := 3,
    completedUnits := 1, totalContacts := 4, schoolsProcessed := 2,
    unitHistory := [4], createdAt := 100, completedAt := none,
    errorDetail := none, artifactRef := none, archived := false }

/-- Sample run after one more completed unit. -/
def sampleAfterUnit : Run :=
  { sampleRunning with
    completedUnits := sampleRunning.completedUnits + 1,
    totalContacts := sampleRunning.totalContacts + 5,
    schoolsProcessed := sampleRunning.schoolsProcessed + 3,
    unitHistory := sampleRunning.unitHistory ++ [5] }

/-- Witness for C8 on a one-step trace: processing one unit of the sample run
keeps the counter monotone and bounded. -/
theorem completed_units_monotone_bounded_witness :
    sampleRunning.completedUnits ≤ sampleRunning.totalUnits ∧
    (sampleRunning.completedUnits ≤ sampleAfterUnit.completedUnits ∧
     sampleAfterUnit.completedUnits ≤ sampleAfterUnit.totalUnits) :=
  ⟨by decide,
   completed_units_monotone_bounded sampleRunning sampleAfterUnit
     (Relation.ReflTransGen.single
       (ExecStep.unitDone sampleRunning 5 3 rfl (by decide)))
     (by decide)⟩

/-- Modelled from the spec: the registry is the keyed store of all runs
(§4.1); keyed access is by `runId`, and here it is carried as the list of its
records. -/
abbrev Registry := List Run

/-- Whether some run in the registry is non-terminal (the locked inspection of
the ConcurrencyGate, §4.3). -/
def hasNonTerminal (reg : Registry) : Bool :=
  reg.any (fun r => nonTerminal r.status)

/-- Whether some run in the registry is `finalizing`. -/
def anyFinalizing (reg : Registry) : Bool :=
  reg.any (fun r => decide (r.status = RunStatus.finalizing))

/-- Whether some run in the registry is `running`. -/
def anyRunning (reg : Registry) : Bool :=
  reg.any (fun r => decide (r.status = RunStatus.running))

/-- Modelled from the spec: the two structured conflict reasons of §4.3. -/
inductive ConflictReason
  | alreadyRunning
  | finalizing
deriving DecidableEq, Repr

/-- Modelled from the spec: the rejection reason distinguishes `Finalizing`
(the prior run is in its terminal aggregation step) from `AlreadyRunning`. -/
def conflictReasonOf (reg : Registry) : ConflictReason :=
  if anyFinalizing reg then .finalizing else .alreadyRunning

/-- Modelled from the spec: a freshly created run — `queued`, zero progress,
not archived, no artifact (§3 lifecycle). -/
def newRun (rid : Nat) (key : String) (total now : Nat) : Run :=
  { runId := rid, targetKey := key, status := .queued, totalUnits := total,
    completedUnits := 0, totalContacts := 0, schoolsProcessed := 0,
    unitHistory := [], createdAt := now, completedAt := none,
    errorDetail := none, artifactRef := none, archived := false }

/-- Result of a `createRun` attempt: the updated registry, or a structured
conflict. -/
inductive CreateResult
  | ok (reg : Registry)
  | conflict (reason : ConflictReason)
deriving DecidableEq, Repr

/-- Modelled from the spec: `StatusService.createRun` guarded by the
ConcurrencyGate (§4.3, §4.6): under one locked inspection, the run is created
only if no run is in `{queued, running, finalizing}`; otherwise the call
returns `Conflict` with the structured reason. -/
def createRun (reg : Registry) (rid : Nat) (key : String) (total now : Nat) :
    CreateResult :=
  if hasNonTerminal reg then .conflict (conflictReasonOf reg)
  else .ok (newRun rid key total now :: reg)

/-- Successful creations among a burst of `createRun` calls; acquisition is
atomic with respect to the registry, so simultaneous calls are serialized by
the gate's lock and each call sees the registry left by the previous one. -/
def createSuccCount (reg : Registry) (key : String) (total now : Nat) :
    List Nat → Nat
  | [] => 0
  | rid :: rest =>
    match createRun reg rid key total now with
    | .ok reg2 => createSuccCount reg2 key total now rest + 1
    | .conflict _ => createSuccCount reg key total now rest

/-- Conflicted creations among a burst of `createRun` calls. -/
def createConfCount (reg : Registry) (key : String) (total now : Nat) :
    List Nat → Nat
  | [] => 0
  | rid :: rest =>
    match createRun reg rid key total now with
    | .ok reg2 => createConfCount reg2 key total now rest
    | .conflict _ => createConfCount reg key total now rest + 1

/-- Number of non-terminal runs in the registry. -/
def activeCount (reg : Registry) : Nat :=
  reg.countP (fun r => nonTerminal r.status)

/-- Modelled from the spec: every registry mutation — a gated creation, an
executor step on one run, or a user-driven archived-flag flip on a terminal
run (§3 lifecycle) — as a step relation on registry states. -/
inductive RegStep : Registry → Registry → Prop
  | create (reg : Registry) (rid : Nat) (key : String) (total now : Nat)
      (reg2 : Registry) (h : createRun reg rid key total now = .ok reg2) :
      RegStep reg reg2
  | exec (pre post : List Run) (r r2 : Run) (h : ExecStep r r2) :
      RegStep (pre ++ r :: post) (pre ++ r2 :: post)
  | setArchived (pre post : List Run) (r : Run) (b : Bool)
      (h : nonTerminal r.status = false) :
      RegStep (pre ++ r :: post) (pre ++ { r with archived := b } :: post)

theorem createRun_ok_inv {reg : Registry} {rid : Nat} {key : String}
    {total now : Nat} {reg2 : Registry}
    (h : createRun reg rid key total now = .ok reg2) :
    hasNonTerminal reg = false ∧ reg2 = newRun rid key total now :: reg := by
  by_cases hb : hasNonTerminal reg
  · rw [createRun, if_pos hb] at h
    exact absurd h (by simp)
  · rw [createRun, if_neg hb] at h
    injection h with h2
    subst h2
    exact ⟨by simpa using hb, rfl⟩

theorem activeCount_eq_zero {reg : Registry} (h : hasNonTerminal reg = false) :
    activeCount reg = 0 := by
  rw [activeCount, List.countP_eq_zero]
  intro a ha
  have := List.any_eq_false.mp h a ha
  simpa using this

theorem regStep_activeCount {reg reg2 : Registry} (h : RegStep reg reg2)
    (hinv : activeCount reg ≤ 1) : activeCount reg2 ≤ 1 := by
  cases h with
  | create reg rid key total now reg2 hok =>
    obtain ⟨hfree, hreg2⟩ := createRun_ok_inv hok
    subst hreg2
    have h0 : activeCount reg = 0 := activeCount_eq_zero hfree
    have hcons : activeCount (newRun rid key total now :: reg) =
        activeCount reg + 1 := by
      simp [activeCount, List.countP_cons, newRun, nonTerminal]
    omega
  | exec pre post r r2 hstep =>
    have key : ∀ x : Run, activeCount (pre ++ x :: post) =
        activeCount pre + activeCount post +
          (if nonTerminal x.status = true then 1 else 0) := by
      intro x
      simp only [activeCount, List.countP_append, List.countP_cons]
      omega
    rw [key r2]
    rw [key r] at hinv
    have hb : (if nonTerminal r2.status = true then 1 else 0) ≤
        (if nonTerminal r.status = true then 1 else 0) := by
      by_cases h2 : nonTerminal r2.status = true
      · rw [if_pos h2, if_pos (execStep_nonTerminal_back hstep h2)]
      · rw [if_neg h2]; omega
    omega
  | setArchived pre post r b hterm =>
    have key : ∀ x : Run, activeCount (pre ++ x :: post) =
        activeCount pre + activeCount post +
          (if nonTerminal x.status = true then 1 else 0) := by
      intro x
      simp only [activeCount, List.countP_append, List.countP_cons]
      omega
    rw [key]
    rw [key] at hinv
    exact hinv

theorem createRun_conflict_of_busy {reg : Registry} (rid : Nat) (key : String)
    (total now : Nat) (h : hasNonTerminal reg = true) :
    createRun reg rid key total now = .conflict (conflictReasonOf reg) := by
  rw [createRun, if_pos h]

theorem hasNonTerminal_cons_new (rid : Nat) (key : String) (total now : Nat)
    (reg : Registry) : hasNonTerminal (newRun rid key total now :: reg) = true := by
  simp [hasNonTerminal, newRun, nonTerminal]

theorem createSuccCount_busy {reg : Registry} {key : String} {total now : Nat}
    (h : hasNonTerminal reg = true) :
    ∀ rids : List Nat, createSuccCount reg key total now rids = 0 := by
  intro rids
  induction rids with
  | nil => rfl
  | cons rid rest ih =>
    rw [createSuccCount, createRun_conflict_of_busy rid key total now h]
    exact ih

theorem createConfCount_busy {reg : Registry} {key : String} {total now : Nat}
    (h : hasNonTerminal reg = true) :
    ∀ rids : List Nat, createConfCount reg key total now rids = rids.length := by
  intro rids
  induction rids with
  | nil => rfl
  | cons rid rest ih =>
    rw [createConfCount, createRun_conflict_of_busy rid key total now h, ih,
      List.length_cons]

/-- Claim C1: given a burst of `createRun` calls serialized by the gate's
atomic acquisition against a registry with no non-terminal run, exactly one
call succeeds and every other receives `Conflict`; and along every reachable
sequence of registry states, at most one run is non-terminal at any time. -/
theorem single_active_run (reg : Registry) (key : String) (total now : Nat)
    (rids : List Nat) (hfree : hasNonTerminal reg = false) (hne : rids ≠ []) :
    (createSuccCount reg key total now rids = 1 ∧
     createConfCount reg key total now rids = rids.length - 1) ∧
    (∀ reg1 reg2 : Registry, Relation.ReflTransGen RegStep reg1 reg2 →
       activeCount reg1 ≤ 1 → activeCount reg2 ≤ 1) := by
  constructor
  · cases rids with
    | nil => exact absurd rfl hne
    | cons rid rest =>
      have hok : createRun reg rid key total now =
          .ok (newRun rid key total now :: reg) := by
        rw [createRun, if_neg (by simp [hfree])]
      have hbusy : hasNonTerminal (newRun rid key total now :: reg) = true :=
        hasNonTerminal_cons_new rid key total now reg
      constructor
      · rw [createSuccCount, hok]
        show createSuccCount (newRun rid key total now :: reg) key total now rest
            + 1 = 1
        rw [createSuccCount_busy hbusy]
      · rw [createConfCount, hok]
        show createConfCount (newRun rid key total now :: reg) key total now rest
            = (rid :: rest).length - 1
        rw [createConfCount_busy hbusy, List.length_cons]
        omega
  · intro reg1 reg2 hreach
    induction hreach with
    | refl => exact id
    | tail hsteps hstep ih => exact fun h1 => regStep_activeCount hstep (ih h1)

/-- Witness for C1: three simultaneous `createRun` calls against an empty
registry — one success, two conflicts. -/
theorem single_active_run_witness :
    hasNonTerminal [] = false ∧ ([1, 2, 3] : List Nat) ≠ [] ∧
    ((createSuccCount [] "delaware" 3 0 [1, 2, 3] = 1 ∧
      createConfCount [] "delaware" 3 0 [1, 2, 3] = [1, 2, 3].length - 1) ∧
     (∀ reg1 reg2 : Registry, Relation.ReflTransGen RegStep reg1 reg2 →
        activeCount reg1 ≤ 1 → activeCount reg2 ≤ 1)) :=
  ⟨rfl, by decide,
   single_active_run [] "delaware" 3 0 [1, 2, 3] rfl (by decide)⟩

/-- Modelled from the spec: `archive` is a user-driven metadata-only operation
(§3, §4.6); the frontend triggers it via `POST /runs/:id/archive`
(`Sidebar.tsx` lines 699-736). -/
def archiveRun (r : Run) : Run :=
  { r with archived := true }

/-- Modelled from the spec: `unarchive`, the inverse metadata-only toggle
(`Sidebar.tsx` lines 738-776). -/
def unarchiveRun (r : Run) : Run :=
  { r with archived := false }

/-- Every field of a run except the `archived` flag. -/
def runCore (r : Run) :
    Nat × String × RunStatus × Nat × Nat × Nat × Nat × List Nat × Nat ×
      Option Nat × Option String × Option String :=
  (r.runId, r.targetKey, r.status, r.totalUnits, r.completedUnits,
   r.totalContacts, r.schoolsProcessed, r.unitHistory, r.createdAt,
   r.completedAt, r.errorDetail, r.artifactRef)

/-- Claim C7: an archive or unarchive toggle changes only the `archived` flag
(status, artifact, counters, timestamps and all other fields are identical
before and after); the executor never touches the flag; and the frontend's
archive button is offered only on the Finished tab, whose runs are all
terminal. -/
theorem archive_toggle_frame (r r2 : Run) (m : RunMetadata)
    (hstep : ExecStep r r2) (hm : sidebarFilter "finished" m = true) :
    runCore (archiveRun r) = runCore r ∧ (archiveRun r).archived = true ∧
    runCore (unarchiveRun r) = runCore r ∧ (unarchiveRun r).archived = false ∧
    r2.archived = r.archived ∧
    (m.status = "completed" ∨ m.status = "error") := by
  refine ⟨rfl, rfl, rfl, rfl, execStep_archived hstep, ?_⟩
  simp [sidebarFilter, archivedTruthy] at hm
  exact hm.1

/-- Run metadata of a finished, not-archived run, used to instantiate the
frontend-filter theorems at a concrete input. -/
def sampleMetaDone : RunMetadata :=
  { run_id := 7, state := "delaware", status := "completed",
    total_counties := some 3, completed_counties := [],
    total_contacts := some 12, schools_processed := some 5,
    created_at := some 100, completed_at := some 200,
    csv_filename := some "run.csv", archived := none }

/-- Sample run after a fatal executor fault. -/
def sampleFatalRun : Run :=
  { sampleRunning with
    status := .error,
    errorDetail := some "boom",
    completedAt := some 200 }

/-- Witness for C7: a fatal executor step on the sample run and the sample
finished-tab metadata record. -/
theorem archive_toggle_frame_witness :
    sidebarFilter "finished" sampleMetaDone = true ∧
    (runCore (archiveRun sampleRunning) = runCore sampleRunning ∧
     (archiveRun sampleRunning).archived = true ∧
     runCore (unarchiveRun sampleRunning) = runCore sampleRunning ∧
     (unarchiveRun sampleRunning).archived = false ∧
     sampleFatalRun.archived = sampleRunning.archived ∧
     (sampleMetaDone.status = "completed" ∨ sampleMetaDone.status = "error")) :=
  ⟨by decide,
   archive_toggle_frame sampleRunning sampleFatalRun sampleMetaDone
     (ExecStep.fatal sampleRunning "boom" 200 rfl) (by decide)⟩

/-- Consumer-side rendering of a 409 Conflict response from
`POST /run-pipeline`: which start-view elements `page.tsx` ends up showing
(error box, line 825; finalizing banner plus disabled Start button,
lines 831-843) and with what message. -/
structure Conflict409Ui where
  errorBoxShown : Bool
  finalizingBannerShown : Bool
  message : String
deriving DecidableEq, Repr

/-- Embeds `page.tsx` `runPipeline` lines 494-505: on a 409 response, the body
flag `isFinalizing` sets the finalizing state and banner message (falling back
to the wait-for-restart copy); otherwise the message falls back to the
already-in-progress copy; either way the error is thrown and caught, so the
error box is shown in both cases and the banner only in the finalizing one. -/
def handle409 (isFinalizingFlag : Bool) (msg : String) : Conflict409Ui :=
  if isFinalizingFlag then
    { errorBoxShown := true, finalizingBannerShown := true,
      message := if msg = "" then
        "A run is currently finalizing. Please wait 2 minutes for the container to restart before starting a new run."
      else msg }
  else
    { errorBoxShown := true, finalizingBannerShown := false,
      message := if msg = "" then
        "Another run is already in progress. Please wait for it to complete or stop it first."
      else msg }

theorem hasNonTerminal_of_anyRunning {reg : Registry}
    (h : anyRunning reg = true) : hasNonTerminal reg = true := by
  rw [anyRunning, List.any_eq_true] at h
  obtain ⟨r, hr, hs⟩ := h
  rw [hasNonTerminal, List.any_eq_true]
  refine ⟨r, hr, ?_⟩
  simp at hs
  simp [hs, nonTerminal]

theorem hasNonTerminal_of_anyFinalizing {reg : Registry}
    (h : anyFinalizing reg = true) : hasNonTerminal reg = true := by
  rw [anyFinalizing, List.any_eq_true] at h
  obtain ⟨r, hr, hs⟩ := h
  rw [hasNonTerminal, List.any_eq_true]
  refine ⟨r, hr, ?_⟩
  simp at hs
  simp [hs, nonTerminal]

/-- Claim C4: a `createRun` rejected while another run is `running` (and none
is `finalizing`) yields `Conflict/AlreadyRunning`; the same call while a run
is `finalizing` yields `Conflict/Finalizing`; and the caller maps the two
response bodies to distinct user-facing states. -/
theorem conflict_reasons_distinguished (reg regF : Registry) (rid : Nat)
    (key : String) (total now : Nat) (msg : String)
    (hrun : anyRunning reg = true)
    (hnofin : anyFinalizing reg = false)
    (hfin : anyFinalizing regF = true) :
    createRun reg rid key total now = .conflict .alreadyRunning ∧
    createRun regF rid key total now = .conflict .finalizing ∧
    (handle409 true msg).finalizingBannerShown = true ∧
    (handle409 false msg).finalizingBannerShown = false ∧
    (∀ m1 m2 : String, handle409 true m1 ≠ handle409 false m2) := by
  refine ⟨?_, ?_, rfl, rfl, fun m1 m2 => ?_⟩
  · rw [createRun_conflict_of_busy rid key total now
      (hasNonTerminal_of_anyRunning hrun)]
    rw [conflictReasonOf, if_neg (by simp [hnofin])]
  · rw [createRun_conflict_of_busy rid key total now
      (hasNonTerminal_of_anyFinalizing hfin)]
    rw [conflictReasonOf, if_pos (by simp [hfin])]
  · intro hcontra
    have hflag := congrArg Conflict409Ui.finalizingBannerShown hcontra
    simp [handle409] at hflag

/-- Sample run in `finalizing` state. -/
def sampleFinalizing : Run :=
  { sampleRunning with status := .finalizing, completedUnits := 3 }

/-- Witness for C4: a registry with one running run versus a registry with one
finalizing run, at a concrete message. -/
theorem conflict_reasons_distinguished_witness :
    anyRunning [sampleRunning] = true ∧
    anyFinalizing [sampleRunning] = false ∧
    anyFinalizing [sampleFinalizing] = true ∧
    (createRun [sampleRunning] 8 "iowa" 99 500 = .conflict .alreadyRunning ∧
     createRun [sampleFinalizing] 8 "iowa" 99 500 = .conflict .finalizing ∧
     (handle409 true "wait").finalizingBannerShown = true ∧
     (handle409 false "wait").finalizingBannerShown = false ∧
     (∀ m1 m2 : String, handle409 true m1 ≠ handle409 false m2)) :=
  ⟨by decide, by decide, by decide,
   conflict_reasons_distinguished [sampleRunning] [sampleFinalizing] 8 "iowa"
     99 500 "wait" (by decide) (by decide) (by decide)⟩

/-- Modelled from the spec: the ProgressEstimator's ETA (§4.2) —
`avgUnitDuration * (total_units - completed_units) - correctionTerm`, clamped
to `≥ 0`, and absent (not zero) when `total_units` is unknown or zero. -/
def etaRemainingSpec (avgUnitDuration correctionTerm : ℚ)
    (totalUnits : Option Nat) (completedUnits : Nat) : Option ℚ :=
  match totalUnits with
  | none => none
  | some t =>
    if t = 0 then none
    else some (max (avgUnitDuration * ((t : ℚ) - (completedUnits : ℚ)) -
      correctionTerm) 0)

/-- Embeds `page.tsx` line 400:
`setEstimatedTime(data.estimatedTimeRemaining || null)` — an absent or zero
field becomes `null` (absent). -/
def intakeEstimatedTime (x : Option ℚ) : Option ℚ :=
  match x with
  | none => none
  | some v => if v = 0 then none else some v

/-- Embeds `page.tsx` line 880: `const estimatedRemaining = estimatedTime || 0`. -/
def estimatedRemainingDisplay (e : Option ℚ) : ℚ :=
  match e with
  | none => 0
  | some v => v

/-- Embeds `page.tsx` lines 966-971: the Estimated Remaining card is rendered
only when `estimatedRemaining > 0`, and then shows that value. -/
def shownEta (e : Option ℚ) : Option ℚ :=
  if 0 < estimatedRemainingDisplay e then some (estimatedRemainingDisplay e)
  else none

/-- Claim C3: the estimator's ETA is absent when `total_units` is unknown or
zero and never negative when present; the consumer turns a zero ETA into an
absent one at intake; and any ETA value actually shown to the user is
strictly positive. -/
theorem eta_absent_or_positive (avg corr : ℚ) (t completed : Nat)
    (x : Option ℚ) (v : ℚ)
    (hshown : shownEta (intakeEstimatedTime x) = some v) :
    etaRemainingSpec avg corr none completed = none ∧
    etaRemainingSpec avg corr (some 0) completed = none ∧
    (∀ w : ℚ, etaRemainingSpec avg corr (some t) completed = some w → 0 ≤ w) ∧
    intakeEstimatedTime (some 0) = none ∧
    0 < v := by
  refine ⟨rfl, rfl, ?_, rfl, ?_⟩
  · intro w hw
    rw [etaRemainingSpec] at hw
    by_cases ht : t = 0
    · rw [if_pos ht] at hw
      exact absurd hw (by simp)
    · rw [if_neg ht] at hw
      injection hw with hw2
      rw [← hw2]
      exact le_max_right _ _
  · rw [shownEta] at hshown
    by_cases hpos : 0 < estimatedRemainingDisplay (intakeEstimatedTime x)
    · rw [if_pos hpos] at hshown
      injection hshown with h2
      rw [← h2]
      exact hpos
    · rw [if_neg hpos] at hshown
      exact absurd hshown (by simp)

/-- Witness for C3 at a backend ETA of `7` seconds. -/
theorem eta_absent_or_positive_witness :
    shownEta (intakeEstimatedTime (some 7)) = some 7 ∧
    (etaRemainingSpec 1 0 none 2 = none ∧
     etaRemainingSpec 1 0 (some 0) 2 = none ∧
     (∀ w : ℚ, etaRemainingSpec 1 0 (some 5) 2 = some w → 0 ≤ w) ∧
     intakeEstimatedTime (some 0) = none ∧
     (0 : ℚ) < 7) :=
  ⟨by norm_num [shownEta, intakeEstimatedTime, estimatedRemainingDisplay],
   eta_absent_or_positive 1 0 5 2 (some 7) 7
     (by norm_num [shownEta, intakeEstimatedTime, estimatedRemainingDisplay])⟩

/-- Result of the status service's `getStatus` (§4.6): a snapshot, `NotFound`
for an unknown id, or `Gone` for a pruned one. -/
inductive StatusResult
  | snapshot (r : Run)
  | notFound
  | gone
deriving DecidableEq, Repr

/-- Modelled from the spec: the status store — the registry plus the set of
run ids whose full per-unit history has been pruned after completion while
their terminal summary stays listed. -/
structure Store where
  runs : List Run
  prunedIds : List Nat
deriving DecidableEq, Repr

/-- Modelled from the spec: `getStatus(runId) -> Snapshot | NotFound | Gone`
(§4.6) — `NotFound` for an unknown `runId`, `Gone` for a pruned one. -/
def getStatus (st : Store) (rid : Nat) : StatusResult :=
  match st.runs.find? (fun r => r.runId == rid) with
  | none => .notFound
  | some r => if st.prunedIds.contains rid then .gone else .snapshot r

/-- Modelled from the spec: the terminal summary of a run as listed by
`GET /runs` — the `RunMetadata` shape the sidebar consumes. -/
def runToMetadata (r : Run) : RunMetadata :=
  { run_id := r.runId, state := r.targetKey, status := statusToString r.status,
    total_counties := some r.totalUnits, completed_counties := [],
    total_contacts := some r.totalContacts,
    schools_processed := some r.schoolsProcessed,
    created_at := some r.createdAt, completed_at := r.completedAt,
    csv_filename := r.artifactRef, archived := some r.archived }

/-- Modelled from the spec: `listRuns` returns the summary of every stored
run, pruned or not. -/
def listRuns (st : Store) : List RunMetadata :=
  st.runs.map runToMetadata

/-- Body of a successful `GET /pipeline-status/:runId` response, as read by
`page.tsx` `onRunSelect` (lines 680-724). -/
structure SnapshotData where
  status : String
  schoolsFound : Option Nat
  schoolsProcessed : Option Nat
  totalContacts : Option Nat
  csvFilename : Option String
deriving DecidableEq, Repr

/-- What `onRunSelect` can observe from `GET /pipeline-status/:runId`: an OK
body, a 410-or-404 (handled by one branch, line 725), or any other failure. -/
inductive SelectResponse
  | okData (d : SnapshotData)
  | goneOr404
  | otherFailure
deriving DecidableEq, Repr

/-- The summary object `onRunSelect` builds and displays. -/
structure SummaryView where
  status : String
  runId : Nat
  schoolsFound : Nat
  totalContacts : Nat
  schoolsProcessed : Nat
  csvFilename : Option String
deriving DecidableEq, Repr

/-- JavaScript `a || b` over optional numbers: a present non-zero value wins,
otherwise the fallback. -/
def jsOrOptNat (a b : Option Nat) : Option Nat :=
  match a with
  | none => b
  | some n => if n = 0 then b else some n

/-- JavaScript `a || b` over optional strings: a present non-empty value
wins, otherwise the fallback. -/
def jsOrOptStr (a b : Option String) : Option String :=
  match a with
  | none => b
  | some s => if s = "" then b else some s

/-- Embeds `page.tsx` lines 697-708: the summary built from a live
`pipeline-status` body, with run-list metadata as fallback for each field. -/
def summaryFromData (rid : Nat) (d : SnapshotData) (meta : Option RunMetadata) :
    SummaryView :=
  { status := d.status, runId := rid,
    schoolsFound := (jsOrOptNat d.schoolsFound (jsOrOptNat d.schoolsProcessed
      (meta.bind RunMetadata.schools_processed))).getD 0,
    totalContacts := (jsOrOptNat d.totalContacts
      (meta.bind RunMetadata.total_contacts)).getD 0,
    schoolsProcessed := (jsOrOptNat d.schoolsProcessed (jsOrOptNat d.schoolsFound
      (meta.bind RunMetadata.schools_processed))).getD 0,
    csvFilename := jsOrOptStr d.csvFilename
      (meta.bind RunMetadata.csv_filename) }

/-- Embeds `page.tsx` lines 727-739: the summary built purely from `GET /runs`
metadata when the status endpoint answered 410 or 404. -/
def summaryFromMetadata (rid : Nat) (m : RunMetadata) : SummaryView :=
  { status := if m.status = "" then "completed" else m.status, runId := rid,
    schoolsFound := m.schools_processed.getD 0,
    totalContacts := m.total_contacts.getD 0,
    schoolsProcessed := m.schools_processed.getD 0,
    csvFilename := m.csv_filename }

/-- The view `onRunSelect` leaves the page in. -/
inductive SelectOutcome
  | progressView
  | summaryView (sm : SummaryView)
  | unchanged
deriving DecidableEq, Repr

/-- Embeds `page.tsx` `onRunSelect` (lines 665-758): a `running` body opens
the progress view; a `completed`/`error` body opens the summary view built
from the body plus metadata; a 410 or 404 falls back to the summary built
from the run-list metadata when that metadata exists; nothing here sets the
error state. -/
def onRunSelectView (rid : Nat) (resp : SelectResponse)
    (meta : Option RunMetadata) : SelectOutcome :=
  match resp with
  | .okData d =>
    if d.status = "running" then .progressView
    else if d.status = "completed" ∨ d.status = "error" then
      .summaryView (summaryFromData rid d meta)
    else .unchanged
  | .goneOr404 =>
    match meta with
    | some m => .summaryView (summaryFromMetadata rid m)
    | none => .unchanged
  | .otherFailure => .unchanged

/-- Claim C5: a pruned run's `getStatus` is `Gone` (not `NotFound`), its
terminal summary is still available via `listRuns`, and the caller falls back
to that summary — a Gone result with metadata present yields the summary
view, never a no-op or failure. -/
theorem gone_falls_back_to_summary (st : Store) (r : Run) (rid : Nat)
    (hfind : st.runs.find? (fun x => x.runId == rid) = some r)
    (hpruned : st.prunedIds.contains rid = true) :
    getStatus st rid = .gone ∧
    getStatus st rid ≠ .notFound ∧
    runToMetadata r ∈ listRuns st ∧
    onRunSelectView rid .goneOr404 (some (runToMetadata r)) =
      .summaryView (summaryFromMetadata rid (runToMetadata r)) ∧
    (∀ m : RunMetadata, onRunSelectView rid .goneOr404 (some m) ≠ .unchanged) := by
  have hgone : getStatus st rid = .gone := by
    rw [getStatus, hfind]
    show (if st.prunedIds.contains rid = true then StatusResult.gone
      else StatusResult.snapshot r) = StatusResult.gone
    rw [if_pos hpruned]
  refine ⟨hgone, by rw [hgone]; simp, ?_, rfl, fun m => by simp [onRunSelectView]⟩
  exact List.mem_map.mpr ⟨r, List.mem_of_find?_eq_some hfind, rfl⟩

/-- Sample completed run whose per-unit history has been pruned. -/
def sampleDoneRun : Run :=
  { sampleRunning with
    status := .completed,
    completedUnits := 3,
    completedAt := some 200,
    artifactRef := some "run.csv" }

/-- Sample store holding only the pruned completed run. -/
def sampleStore : Store :=
  { runs := [sampleDoneRun], prunedIds := [7] }

/-- Witness for C5 on the sample store. -/
theorem gone_falls_back_to_summary_witness :
    sampleStore.runs.find? (fun x => x.runId == 7) = some sampleDoneRun ∧
    sampleStore.prunedIds.contains 7 = true ∧
    (getStatus sampleStore 7 = .gone ∧
     getStatus sampleStore 7 ≠ .notFound ∧
     runToMetadata sampleDoneRun ∈ listRuns sampleStore ∧
     onRunSelectView 7 .goneOr404 (some (runToMetadata sampleDoneRun)) =
       .summaryView (summaryFromMetadata 7 (runToMetadata sampleDoneRun)) ∧
     (∀ m : RunMetadata, onRunSelectView 7 .goneOr404 (some m) ≠ .unchanged)) :=
  ⟨by decide, by decide,
   gone_falls_back_to_summary sampleStore sampleDoneRun 7 (by decide) (by decide)⟩

end SchoolScraper
